import Mathlib

/-!
Verification of the frame codec in `src/extras/creality_cfs.py`
(Creality CFS binary protocol: CRC8 checksum, `force_to_bytes` value
coercion, `DataPackage` command frames and `MessageBlock` negotiation
frames).  Byte buffers are modelled as `List Nat` whose elements are
below 256; Python exceptions are modelled by the `PyError` type and
fallible operations return `Except PyError _`.
-/

namespace CFS

/-- Python exceptions raised by the codec:
`unknownType` is the `ValueError("Unknown type: ...")` raised by the
`force_to_bytes` base dispatch, `intOverflow` the `OverflowError` raised by
`int.to_bytes(1, 'big')` on a negative or too-large integer, `unpackMismatch`
the `ValueError` raised by starred tuple unpacking on a too-short buffer, and
`checksumMismatch computed expected` the `ValueError` raised by `check_crc8`. -/
inductive PyError where
  | unknownType : PyError
  | intOverflow : PyError
  | unpackMismatch : PyError
  | checksumMismatch (computed expected : Nat) : PyError
deriving DecidableEq

/-- The value shapes `force_to_bytes` can receive: Python `int` (unbounded,
possibly negative), `bytes`, `str`, `list`, and a representative of any
unregistered type (`float` is the spec's example). -/
inductive PyValue where
  | int (n : Int) : PyValue
  | bytes (bs : List Nat) : PyValue
  | str (s : String) : PyValue
  | list (vs : List PyValue) : PyValue
  | float : PyValue

/-- UTF-8 encoding of a string, as natural numbers below 256
(Python `str.encode()`). -/
def utf8Bytes (s : String) : List Nat :=
  s.toUTF8.toList.map (fun b => b.toNat)

mutual

/-- Embeds `force_to_bytes` (src/extras/creality_cfs.py lines 19-60): singledispatch
over the runtime type.  `int` becomes one big-endian byte via
`value.to_bytes(1, 'big')` (OverflowError outside 0..255), `bytes` passes
through, `str` is UTF-8 encoded, `list` concatenates the coercion of each
element, and any unregistered type raises `ValueError`. -/
def force_to_bytes : PyValue → Except PyError (List Nat)
  | .int n => if 0 ≤ n ∧ n < 256 then .ok [n.toNat] else .error .intOverflow
  | .bytes bs => .ok bs
  | .str s => .ok (utf8Bytes s)
  | .list vs => force_list vs
  | .float => .error .unknownType

/-- The `list` branch of `force_to_bytes`:
`b''.join(map(force_to_bytes, value))`, first failure propagating. -/
def force_list : List PyValue → Except PyError (List Nat)
  | [] => .ok []
  | v :: vs =>
      (force_to_bytes v).bind fun b =>
      (force_list vs).bind fun rest =>
      .ok (b ++ rest)

end

/-- One iteration of the inner loop of `CRC8Structure._calc_crc8`
(line 181): `crc = ((crc << 1) ^ 0x07 if crc & 0x80 else crc << 1) & 0xFF`. -/
def crcRound (crc : Nat) : Nat :=
  (if crc &&& 0x80 ≠ 0 then (crc <<< 1) ^^^ 0x07 else crc <<< 1) &&& 0xFF

/-- The loop `for _ in range(k)` around `crcRound`. -/
def crcLoop : Nat → Nat → Nat
  | 0, crc => crc
  | k + 1, crc => crcLoop k (crcRound crc)

/-- Processing of one input byte by `_calc_crc8`: XOR the byte in, then run
the 8 inner rounds. -/
def crcByteStep (crc byte : Nat) : Nat :=
  crcLoop 8 (crc ^^^ byte)

/-- Embeds `CRC8Structure._calc_crc8` (lines 166-183): accumulator seeded at 0,
each input byte processed by `crcByteStep`. -/
def calc_crc8 (data : List Nat) : Nat :=
  data.foldl crcByteStep 0

/-- Embeds `CRC8Structure.check_crc8` (lines 185-199): recompute and compare,
raising `ValueError` (with the computed value first) on mismatch. -/
def check_crc8 (data : List Nat) (crc : Nat) : Except PyError Unit :=
  if calc_crc8 data = crc then .ok ()
  else .error (.checksumMismatch (calc_crc8 data) crc)

/-- A Python byte value (an int in 0..255 obtained by iterating a `bytes`
object) as a `PyValue`. -/
def byteItem (n : Nat) : PyValue := .int (n : Int)

/-- Embeds `DataPackage` (lines 203-317): the full command/response frame, a frozen
dataclass with fields in wire order.  Field values are Python ints (here
`Nat`; no claim involves a negative field value) and `data` is a Python list
of heterogeneous byte-producing values. -/
structure DataPackage where
  head : Nat
  slave_addr : Nat
  length : Nat
  status : Nat
  function_code : Nat
  data : List PyValue
  crc : Nat

/-- Embeds `DataPackage.message_block` (lines 243-254): concatenate
`force_to_bytes` of every field in declaration order; the first coercion
failure propagates. -/
def DataPackage.message_block (p : DataPackage) : Except PyError (List Nat) :=
  (force_to_bytes (.int p.head)).bind fun b0 =>
  (force_to_bytes (.int p.slave_addr)).bind fun b1 =>
  (force_to_bytes (.int p.length)).bind fun b2 =>
  (force_to_bytes (.int p.status)).bind fun b3 =>
  (force_to_bytes (.int p.function_code)).bind fun b4 =>
  (force_to_bytes (.list p.data)).bind fun b5 =>
  (force_to_bytes (.int p.crc)).bind fun b6 =>
  .ok (b0 ++ b1 ++ b2 ++ b3 ++ b4 ++ b5 ++ b6)

/-- Embeds `DataPackage.__post_init__` (lines 230-241): check the CRC8 of
`message_block[2:-1]` (everything after `head` and `slave_addr` and before
the trailing `crc` byte) against the `crc` field. -/
def DataPackage.validate (p : DataPackage) : Except PyError Unit :=
  match p.message_block with
  | .ok mb => check_crc8 ((mb.drop 2).dropLast) p.crc
  | .error e => .error e

/-- Construction of a `DataPackage` through the dataclass constructor,
which runs `__post_init__`: the frame is returned only when validation
succeeds, otherwise the exception propagates. -/
def DataPackage.make (head slave_addr length status function_code : Nat)
    (data : List PyValue) (crc : Nat) : Except PyError DataPackage :=
  let p : DataPackage :=
    ⟨head, slave_addr, length, status, function_code, data, crc⟩
  p.validate.map (fun _ => p)

/-- Embeds `DataPackage.loads` (lines 256-285): starred tuple unpacking
`(head, slave_addr, length, status, function_code, *data, crc) = value`
(ValueError when fewer than 6 bytes), then the validating constructor.
Iterating a Python `bytes` yields ints, so `data` is a list of ints. -/
def DataPackage.loads (value : List Nat) : Except PyError DataPackage :=
  match value with
  | v0 :: v1 :: v2 :: v3 :: v4 :: v5 :: rest =>
      DataPackage.make v0 v1 v2 v3 v4
        (((v5 :: rest).dropLast).map byteItem)
        ((v5 :: rest).getLast (List.cons_ne_nil v5 rest))
  | _ => .error .unpackMismatch

/-- Embeds `DataPackage.__hash__` (lines 287-294): `hash(self.message_block)`.
Python's `hash` on `bytes` is an unspecified pure function of the byte
string, so it is taken as a parameter `h`. -/
def DataPackage.pyHash (h : List Nat → Nat) (p : DataPackage) :
    Except PyError Nat :=
  (p.message_block).map h

/-- Embeds `MessageBlock` (lines 320-403): the negotiation frame, a frozen
dataclass with fields `head`, `length`, `payload`, `crc` in wire order. -/
structure MessageBlock where
  head : Nat
  length : Nat
  payload : List PyValue
  crc : Nat

/-- Embeds `MessageBlock.message_block` (lines 359-370): concatenate
`force_to_bytes` of every field in declaration order. -/
def MessageBlock.message_block (p : MessageBlock) : Except PyError (List Nat) :=
  (force_to_bytes (.int p.head)).bind fun b0 =>
  (force_to_bytes (.int p.length)).bind fun b1 =>
  (force_to_bytes (.list p.payload)).bind fun b2 =>
  (force_to_bytes (.int p.crc)).bind fun b3 =>
  .ok (b0 ++ b1 ++ b2 ++ b3)

/-- Embeds `MessageBlock.__post_init__` (lines 381-392): check the CRC8 of
`message_block[2:-1]` against the `crc` field.  Since the serialized prefix
is `head ++ length`, the slice `[2:-1]` is exactly the payload bytes: the
`length` byte is *excluded* from the checksum domain (the accompanying
source comment claims otherwise). -/
def MessageBlock.validate (p : MessageBlock) : Except PyError Unit :=
  match p.message_block with
  | .ok mb => check_crc8 ((mb.drop 2).dropLast) p.crc
  | .error e => .error e

/-- Construction of a `MessageBlock` through the dataclass constructor,
running `__post_init__`. -/
def MessageBlock.make (head length : Nat) (payload : List PyValue)
    (crc : Nat) : Except PyError MessageBlock :=
  let p : MessageBlock := ⟨head, length, payload, crc⟩
  p.validate.map (fun _ => p)

/-- Embeds `MessageBlock.loads` (lines 334-357): starred tuple unpacking
`(head, length, *payload, crc) = value` (ValueError when fewer than 3
bytes), then the validating constructor. -/
def MessageBlock.loads (value : List Nat) : Except PyError MessageBlock :=
  match value with
  | v0 :: v1 :: v2 :: rest =>
      MessageBlock.make v0 v1
        (((v2 :: rest).dropLast).map byteItem)
        ((v2 :: rest).getLast (List.cons_ne_nil v2 rest))
  | _ => .error .unpackMismatch

/-- Embeds `MessageBlock.__hash__` (lines 372-379): `hash(self.message_block)`. -/
def MessageBlock.pyHash (h : List Nat → Nat) (p : MessageBlock) :
    Except PyError Nat :=
  (p.message_block).map h

/-- The members of the `Command` enumeration (lines 63-95), in declaration
order, as (name, value) pairs. -/
def commandMembers : List (String × Nat) :=
  [("CREATE_CONNECT", 0x01), ("GET_RFID", 0x02), ("GET_REMAIN_LEN", 0x03),
   ("SET_BOX_MODE", 0x04), ("GET_BUFFER_STATE", 0x05),
   ("CTRL_MATERIAL_MOTOR_ACTION", 0x06),
   ("CTRL_CONNECTION_MOTOR_ACTION", 0x07),
   ("GET_FILAMENT_SENSOR_STATE", 0x08), ("SET_MOTOR_SPEED", 0x09),
   ("GET_BOX_STATE", 0x0a), ("SET_PRE_LOADING", 0x0d),
   ("MEASURING_WHEEL", 0x0e), ("TIGHTEN_UP_ENABLE", 0x0f),
   ("EXTRUDE_PROCESS", 0x10), ("RETRUDE_PROCESS", 0x11),
   ("EXTRUDE_PROCESS_MODEL2", 0x13), ("GET_VERSION_SN", 0x14),
   ("GET_HARDWARE_STATUS", 0x15), ("COMMUNICATION_TEST", 0x55),
   ("CMD_GET_SLAVE_INFO", 0xA1), ("CMD_SET_SLAVE_ADDR", 0xA0),
   ("CMD_ONLINE_CHECK", 0xA2), ("CMD_GET_ADDR_TABLE", 0xA3),
   ("CMD_LOADER_TO_APP", 0x0B)]

/-- The members of the `ResponseState` enumeration (lines 98-129), in
declaration order, as (name, value) pairs. -/
def responseStateMembers : List (String × Nat) :=
  [("OK", 0x00), ("PARAMS_ERR", 0x01), ("CRC_ERR", 0x02),
   ("STATE_ERR", 0x03), ("LENGTH_ERR", 0x04), ("EXTRUDE_ERR1", 0x05),
   ("EXTRUDE_ERR4", 0x08), ("EXTRUDE_ERR5", 0x09), ("EXTRUDE_ERR6", 0x0a),
   ("EXTRUDE_ERR7", 0x0b), ("EXTRUDE_ERR8", 0x0c), ("EXTRUDE_ERR9", 0x0e),
   ("EXTRUDE_ERR10", 0x0d), ("RETRUDE_ERR1", 0x12), ("RETRUDE_ERR2", 0x13),
   ("RETRUDE_ERR3", 0x14), ("RETRUDE_ERR4", 0x15), ("RETRUDE_ERR5", 0x16),
   ("RETRUDE_ERR6", 0x19), ("RETRUDE_ERR7", 0x1a), ("MOTOR_LOAD_ERR", 0x22),
   ("UPDATE_STATE", 0x30), ("FILAMENT_ERR", 0x50), ("SPEED_ERR", 0x51),
   ("ENWIND_ERR", 0x52)]

/-- Membership-based name lookup in an `IntEnum`: `value in list(Enum)`
compares by numeric value, and `Enum(value).name` returns the (unique,
by `@enum.unique`) member's name. -/
def enumLookup (members : List (String × Nat)) (value : Nat) :
    Option String :=
  (members.find? (fun m => m.2 = value)).map (fun m => m.1)

/-- How `DataPackage.__repr__` (lines 296-317) renders the
`function_code` / `status` fields: the enumeration member when the raw
value is in the enumeration, the raw value itself otherwise. -/
inductive FieldRepr where
  | member (name : String) : FieldRepr
  | raw (value : Nat) : FieldRepr
deriving DecidableEq

/-- The `fn` resolution in `DataPackage.__repr__`:
`if self.function_code in list(Command): fn = Command(self.function_code).name`. -/
def reprFunctionCode (fc : Nat) : FieldRepr :=
  match enumLookup commandMembers fc with
  | some n => .member n
  | none => .raw fc

/-- The `status` resolution in `DataPackage.__repr__`:
`if self.status in list(ResponseState): status = ResponseState(self.status)`. -/
def reprStatus (st : Nat) : FieldRepr :=
  match enumLookup responseStateMembers st with
  | some n => .member n
  | none => .raw st

/-- A buffer is byte-valid when every element fits in one byte, as the
elements of a Python `bytes` object always do. -/
def IsBytes (l : List Nat) : Prop := ∀ x ∈ l, x < 256

instance decidableIsBytes (l : List Nat) : Decidable (IsBytes l) :=
  List.decidableBAll (fun x => x < 256) l

/-- Modelled from the spec (§4.2): one round of the textbook byte-wise
CRC-8 with polynomial 0x07 — if the top bit of the accumulator is set,
shift left by one and XOR with 0x07, masking to 8 bits; otherwise shift
left by one, masking to 8 bits. -/
def textbookRound (c : Nat) : Nat :=
  if 128 ≤ c then ((2 * c) ^^^ 0x07) % 256 else (2 * c) % 256

/-- Modelled from the spec (§4.2): the 8 rounds applied per input byte. -/
def textbookLoop : Nat → Nat → Nat
  | 0, c => c
  | k + 1, c => textbookLoop k (textbookRound c)

/-- Modelled from the spec (§4.2): the textbook CRC-8/poly-0x07 —
accumulator seeded at 0, each input byte XORed in, then 8 rounds. -/
def crc8_textbook (data : List Nat) : Nat :=
  data.foldl (fun c b => textbookLoop 8 (c ^^^ b)) 0

set_option maxRecDepth 8000

lemma bind_ok_inv {α β : Type} {x : Except PyError α} {f : α → Except PyError β}
    {b : β} (h : x.bind f = .ok b) : ∃ a, x = .ok a ∧ f a = .ok b := by
  cases x with
  | ok a => exact ⟨a, rfl, h⟩
  | error e => simp [Except.bind] at h

lemma force_int_nat (n : Nat) :
    force_to_bytes (.int (n : Int)) =
      if n < 256 then .ok [n] else .error .intOverflow := by
  rw [force_to_bytes]
  by_cases h : n < 256
  · rw [if_pos (by constructor <;> omega), if_pos h, Int.toNat_natCast]
  · rw [if_neg (by omega), if_neg h]

lemma force_int_nat_ok_inv {n : Nat} {bs : List Nat}
    (h : force_to_bytes (.int (n : Int)) = .ok bs) : n < 256 ∧ bs = [n] := by
  rw [force_int_nat] at h
  by_cases hn : n < 256
  · rw [if_pos hn] at h
    exact ⟨hn, (Except.ok.inj h).symm⟩
  · rw [if_neg hn] at h
    exact absurd h (by simp)

lemma force_byteItem (n : Nat) :
    force_to_bytes (byteItem n) =
      if n < 256 then .ok [n] else .error .intOverflow :=
  force_int_nat n

lemma force_list_map_int_ok {d : List Nat} (hd : IsBytes d) :
    force_list (d.map byteItem) = .ok d := by
  induction d with
  | nil => rfl
  | cons a t ih =>
      have ha : a < 256 := hd a (by simp)
      have ht : IsBytes t := fun x hx => hd x (by simp [hx])
      rw [List.map_cons, force_list, force_byteItem, if_pos ha, ih ht]
      rfl

lemma force_list_map_int_inv {d db : List Nat}
    (h : force_list (d.map byteItem) = .ok db) :
    db = d ∧ IsBytes d := by
  induction d generalizing db with
  | nil =>
      rw [List.map_nil, force_list] at h
      exact ⟨(Except.ok.inj h).symm, by intro x hx; cases hx⟩
  | cons a t ih =>
      rw [List.map_cons, force_list, force_byteItem] at h
      by_cases ha : a < 256
      · rw [if_pos ha] at h
        cases hfl : force_list (t.map byteItem) with
        | ok rest =>
            rw [hfl] at h
            simp only [Except.bind, Except.ok.injEq, List.singleton_append]
              at h
            obtain ⟨hr, htb⟩ := ih hfl
            subst hr
            refine ⟨h.symm, ?_⟩
            intro x hx
            rcases List.mem_cons.mp hx with hx | hx
            · exact hx ▸ ha
            · exact htb x hx
        | error e =>
            rw [hfl] at h
            exact absurd h (by simp [Except.bind])
      · rw [if_neg ha] at h
        exact absurd h (by simp [Except.bind])

lemma dp_message_block_eq {p : DataPackage} {db : List Nat}
    (hdb : force_list p.data = .ok db)
    (hh : p.head < 256) (ha : p.slave_addr < 256) (hl : p.length < 256)
    (hs : p.status < 256) (hf : p.function_code < 256) (hc : p.crc < 256) :
    p.message_block =
      .ok ([p.head, p.slave_addr, p.length, p.status, p.function_code]
            ++ db ++ [p.crc]) := by
  rw [DataPackage.message_block]
  simp [force_to_bytes, force_int_nat, hh, ha, hl, hs, hf, hc, hdb,
    Except.bind]

lemma dp_message_block_ok_inv {p : DataPackage} {mb : List Nat}
    (h : p.message_block = .ok mb) :
    p.head < 256 ∧ p.slave_addr < 256 ∧ p.length < 256 ∧ p.status < 256 ∧
    p.function_code < 256 ∧ p.crc < 256 ∧
    ∃ db, force_list p.data = .ok db ∧
      mb = [p.head, p.slave_addr, p.length, p.status, p.function_code]
            ++ db ++ [p.crc] := by
  rw [DataPackage.message_block] at h
  rw [show force_to_bytes (PyValue.list p.data) = force_list p.data from rfl] at h
  obtain ⟨b0, hb0, h⟩ := bind_ok_inv h
  obtain ⟨hh, rfl⟩ := force_int_nat_ok_inv hb0
  obtain ⟨b1, hb1, h⟩ := bind_ok_inv h
  obtain ⟨ha, rfl⟩ := force_int_nat_ok_inv hb1
  obtain ⟨b2, hb2, h⟩ := bind_ok_inv h
  obtain ⟨hl, rfl⟩ := force_int_nat_ok_inv hb2
  obtain ⟨b3, hb3, h⟩ := bind_ok_inv h
  obtain ⟨hs, rfl⟩ := force_int_nat_ok_inv hb3
  obtain ⟨b4, hb4, h⟩ := bind_ok_inv h
  obtain ⟨hf, rfl⟩ := force_int_nat_ok_inv hb4
  obtain ⟨db, hdb, h⟩ := bind_ok_inv h
  obtain ⟨b6, hb6, h⟩ := bind_ok_inv h
  obtain ⟨hc, rfl⟩ := force_int_nat_ok_inv hb6
  exact ⟨hh, ha, hl, hs, hf, hc, db, hdb, by simpa using (Except.ok.inj h).symm⟩

lemma mb_message_block_eq {m : MessageBlock} {pb : List Nat}
    (hpb : force_list m.payload = .ok pb)
    (hh : m.head < 256) (hl : m.length < 256) (hc : m.crc < 256) :
    m.message_block = .ok ([m.head, m.length] ++ pb ++ [m.crc]) := by
  rw [MessageBlock.message_block]
  simp [force_to_bytes, force_int_nat, hh, hl, hc, hpb, Except.bind]

lemma mb_message_block_ok_inv {m : MessageBlock} {mb : List Nat}
    (h : m.message_block = .ok mb) :
    m.head < 256 ∧ m.length < 256 ∧ m.crc < 256 ∧
    ∃ pb, force_list m.payload = .ok pb ∧
      mb = [m.head, m.length] ++ pb ++ [m.crc] := by
  rw [MessageBlock.message_block] at h
  rw [show force_to_bytes (PyValue.list m.payload) = force_list m.payload from rfl] at h
  obtain ⟨b0, hb0, h⟩ := bind_ok_inv h
  obtain ⟨hh, rfl⟩ := force_int_nat_ok_inv hb0
  obtain ⟨b1, hb1, h⟩ := bind_ok_inv h
  obtain ⟨hl, rfl⟩ := force_int_nat_ok_inv hb1
  obtain ⟨pb, hpb, h⟩ := bind_ok_inv h
  obtain ⟨b3, hb3, h⟩ := bind_ok_inv h
  obtain ⟨hc, rfl⟩ := force_int_nat_ok_inv hb3
  exact ⟨hh, hl, hc, pb, hpb, by simpa using (Except.ok.inj h).symm⟩

lemma check_crc8_ok_iff {d : List Nat} {c : Nat} :
    check_crc8 d c = .ok () ↔ calc_crc8 d = c := by
  rw [check_crc8]
  by_cases h : calc_crc8 d = c
  · simp [h]
  · simp [h]

lemma check_crc8_err {d : List Nat} {c : Nat} (h : calc_crc8 d ≠ c) :
    check_crc8 d c = .error (.checksumMismatch (calc_crc8 d) c) := by
  rw [check_crc8, if_neg h]

lemma domain_shape (h0 a l s f c : Nat) (d : List Nat) :
    ((([h0, a, l, s, f] ++ d ++ [c]).drop 2).dropLast) = [l, s, f] ++ d := by
  have h2 : [l, s, f] ++ d ++ [c] = ([l, s, f] ++ d) ++ [c] := by
    rw [List.append_assoc]
  calc (([h0, a, l, s, f] ++ d ++ [c]).drop 2).dropLast
      = ([l, s, f] ++ d ++ [c]).dropLast := rfl
    _ = (([l, s, f] ++ d) ++ [c]).dropLast := by rw [h2]
    _ = [l, s, f] ++ d := List.dropLast_concat

lemma mb_domain_shape (h0 l c : Nat) (pl : List Nat) :
    ((([h0, l] ++ pl ++ [c]).drop 2).dropLast) = pl := by
  calc (([h0, l] ++ pl ++ [c]).drop 2).dropLast
      = (pl ++ [c]).dropLast := rfl
    _ = pl := List.dropLast_concat

lemma dp_validate_of_mb {p : DataPackage} {mb : List Nat}
    (hmb : p.message_block = .ok mb) :
    p.validate = check_crc8 ((mb.drop 2).dropLast) p.crc := by
  unfold DataPackage.validate
  rw [hmb]

lemma dp_validate_coerce_err {p : DataPackage} {e : PyError}
    (hmb : p.message_block = .error e) : p.validate = .error e := by
  unfold DataPackage.validate
  rw [hmb]

lemma mb_validate_of_mb {m : MessageBlock} {mb : List Nat}
    (hmb : m.message_block = .ok mb) :
    m.validate = check_crc8 ((mb.drop 2).dropLast) m.crc := by
  unfold MessageBlock.validate
  rw [hmb]

lemma getLast_concat_ne {α : Type} (d : List α) (c : α) (hne : d ++ [c] ≠ []) :
    (d ++ [c]).getLast hne = c :=
  List.getLast_append_singleton d

lemma dp_make_eq {h0 a l s f c : Nat} {d : List PyValue} {db : List Nat}
    (hdb : force_list d = .ok db)
    (hh : h0 < 256) (ha : a < 256) (hl : l < 256) (hs : s < 256)
    (hf : f < 256) (hc : c < 256) :
    DataPackage.make h0 a l s f d c =
      if calc_crc8 ([l, s, f] ++ db) = c
      then .ok ⟨h0, a, l, s, f, d, c⟩
      else .error (.checksumMismatch (calc_crc8 ([l, s, f] ++ db)) c) := by
  have hmb :
      (DataPackage.mk h0 a l s f d c).message_block =
        .ok ([h0, a, l, s, f] ++ db ++ [c]) :=
    dp_message_block_eq hdb hh ha hl hs hf hc
  rw [DataPackage.make, dp_validate_of_mb hmb, domain_shape, check_crc8]
  by_cases hcrc : calc_crc8 ([l, s, f] ++ db) = c
  · rw [if_pos hcrc, if_pos hcrc]
    rfl
  · rw [if_neg hcrc, if_neg hcrc]
    rfl

lemma mb_make_eq {h0 l c : Nat} {pl : List PyValue} {pb : List Nat}
    (hpb : force_list pl = .ok pb)
    (hh : h0 < 256) (hl : l < 256) (hc : c < 256) :
    MessageBlock.make h0 l pl c =
      if calc_crc8 pb = c
      then .ok ⟨h0, l, pl, c⟩
      else .error (.checksumMismatch (calc_crc8 pb) c) := by
  have hmb :
      (MessageBlock.mk h0 l pl c).message_block =
        .ok ([h0, l] ++ pb ++ [c]) :=
    mb_message_block_eq hpb hh hl hc
  rw [MessageBlock.make, mb_validate_of_mb hmb, mb_domain_shape, check_crc8]
  by_cases hcrc : calc_crc8 pb = c
  · rw [if_pos hcrc, if_pos hcrc]
    rfl
  · rw [if_neg hcrc, if_neg hcrc]
    rfl

lemma dp_loads_shape (h0 a l s f c : Nat) (d : List Nat) :
    DataPackage.loads ([h0, a, l, s, f] ++ d ++ [c]) =
      DataPackage.make h0 a l s f (d.map byteItem) c := by
  cases d with
  | nil => rfl
  | cons x xs =>
      have h1 : DataPackage.loads ([h0, a, l, s, f] ++ (x :: xs) ++ [c]) =
          DataPackage.make h0 a l s f
            ((((x :: xs) ++ [c]).dropLast).map byteItem)
            (((x :: xs) ++ [c]).getLast (by simp)) := rfl
      rw [h1, List.dropLast_concat, getLast_concat_ne]

lemma mb_loads_shape (h0 l c : Nat) (pl : List Nat) :
    MessageBlock.loads ([h0, l] ++ pl ++ [c]) =
      MessageBlock.make h0 l (pl.map byteItem) c := by
  cases pl with
  | nil => rfl
  | cons x xs =>
      have h1 : MessageBlock.loads ([h0, l] ++ (x :: xs) ++ [c]) =
          MessageBlock.make h0 l
            ((((x :: xs) ++ [c]).dropLast).map byteItem)
            (((x :: xs) ++ [c]).getLast (by simp)) := rfl
      rw [h1, List.dropLast_concat, getLast_concat_ne]

lemma dp_loads_shape_ok {h0 a l s f c : Nat} {d : List Nat}
    (hh : h0 < 256) (ha : a < 256) (hl : l < 256) (hs : s < 256)
    (hf : f < 256) (hc : c < 256) (hd : IsBytes d)
    (hcrc : calc_crc8 ([l, s, f] ++ d) = c) :
    DataPackage.loads ([h0, a, l, s, f] ++ d ++ [c]) =
      .ok ⟨h0, a, l, s, f, d.map byteItem, c⟩ := by
  rw [dp_loads_shape,
    dp_make_eq (force_list_map_int_ok hd) hh ha hl hs hf hc, if_pos hcrc]

lemma dp_loads_shape_err {h0 a l s f c : Nat} {d : List Nat}
    (hh : h0 < 256) (ha : a < 256) (hl : l < 256) (hs : s < 256)
    (hf : f < 256) (hc : c < 256) (hd : IsBytes d)
    (hcrc : calc_crc8 ([l, s, f] ++ d) ≠ c) :
    DataPackage.loads ([h0, a, l, s, f] ++ d ++ [c]) =
      .error (.checksumMismatch (calc_crc8 ([l, s, f] ++ d)) c) := by
  rw [dp_loads_shape,
    dp_make_eq (force_list_map_int_ok hd) hh ha hl hs hf hc, if_neg hcrc]

lemma mb_loads_shape_ok {h0 l c : Nat} {pl : List Nat}
    (hh : h0 < 256) (hl : l < 256) (hc : c < 256) (hpl : IsBytes pl)
    (hcrc : calc_crc8 pl = c) :
    MessageBlock.loads ([h0, l] ++ pl ++ [c]) =
      .ok ⟨h0, l, pl.map byteItem, c⟩ := by
  rw [mb_loads_shape,
    mb_make_eq (force_list_map_int_ok hpl) hh hl hc, if_pos hcrc]

lemma mb_loads_shape_err {h0 l c : Nat} {pl : List Nat}
    (hh : h0 < 256) (hl : l < 256) (hc : c < 256) (hpl : IsBytes pl)
    (hcrc : calc_crc8 pl ≠ c) :
    MessageBlock.loads ([h0, l] ++ pl ++ [c]) =
      .error (.checksumMismatch (calc_crc8 pl) c) := by
  rw [mb_loads_shape,
    mb_make_eq (force_list_map_int_ok hpl) hh hl hc, if_neg hcrc]

lemma dp_loads_short {b : List Nat} (hb : b.length < 6) :
    DataPackage.loads b = .error .unpackMismatch := by
  match b, hb with
  | [], _ => rfl
  | [v0], _ => rfl
  | [v0, v1], _ => rfl
  | [v0, v1, v2], _ => rfl
  | [v0, v1, v2, v3], _ => rfl
  | [v0, v1, v2, v3, v4], _ => rfl
  | v0 :: v1 :: v2 :: v3 :: v4 :: v5 :: rest, hb =>
      simp only [List.length_cons] at hb
      omega

lemma mb_loads_short {b : List Nat} (hb : b.length < 3) :
    MessageBlock.loads b = .error .unpackMismatch := by
  match b, hb with
  | [], _ => rfl
  | [v0], _ => rfl
  | [v0, v1], _ => rfl
  | v0 :: v1 :: v2 :: rest, hb =>
      simp only [List.length_cons] at hb
      omega

lemma dp_make_ok_inv {h0 a l s f c : Nat} {d : List PyValue} {p : DataPackage}
    (h : DataPackage.make h0 a l s f d c = .ok p) :
    p = ⟨h0, a, l, s, f, d, c⟩ ∧
      (DataPackage.mk h0 a l s f d c).validate = .ok () := by
  simp only [DataPackage.make] at h
  cases hv : (DataPackage.mk h0 a l s f d c).validate with
  | ok u =>
      cases u
      rw [hv] at h
      simp only [Except.map, Except.ok.injEq] at h
      exact ⟨h.symm, rfl⟩
  | error e =>
      rw [hv] at h
      simp [Except.map] at h

lemma mb_make_ok_inv {h0 l c : Nat} {pl : List PyValue} {m : MessageBlock}
    (h : MessageBlock.make h0 l pl c = .ok m) :
    m = ⟨h0, l, pl, c⟩ ∧ (MessageBlock.mk h0 l pl c).validate = .ok () := by
  simp only [MessageBlock.make] at h
  cases hv : (MessageBlock.mk h0 l pl c).validate with
  | ok u =>
      cases u
      rw [hv] at h
      simp only [Except.map, Except.ok.injEq] at h
      exact ⟨h.symm, rfl⟩
  | error e =>
      rw [hv] at h
      simp [Except.map] at h

lemma mb_validate_coerce_err {m : MessageBlock} {e : PyError}
    (hmb : m.message_block = .error e) : m.validate = .error e := by
  unfold MessageBlock.validate
  rw [hmb]

lemma dp_loads_ok_inv {b : List Nat} {p : DataPackage}
    (h : DataPackage.loads b = .ok p) :
    ∃ h0 a l s f c d, b = [h0, a, l, s, f] ++ d ++ [c] ∧
      h0 < 256 ∧ a < 256 ∧ l < 256 ∧ s < 256 ∧ f < 256 ∧ c < 256 ∧
      IsBytes d ∧ calc_crc8 ([l, s, f] ++ d) = c ∧
      p = ⟨h0, a, l, s, f, d.map byteItem, c⟩ := by
  match b with
  | [] => exact Except.noConfusion h
  | [v0] => exact Except.noConfusion h
  | [v0, v1] => exact Except.noConfusion h
  | [v0, v1, v2] => exact Except.noConfusion h
  | [v0, v1, v2, v3] => exact Except.noConfusion h
  | [v0, v1, v2, v3, v4] => exact Except.noConfusion h
  | v0 :: v1 :: v2 :: v3 :: v4 :: v5 :: rest =>
    obtain ⟨d, c, hdc⟩ : ∃ d c, v5 :: rest = d ++ [c] :=
      ⟨_, _, (List.dropLast_append_getLast (List.cons_ne_nil v5 rest)).symm⟩
    have hb : v0 :: v1 :: v2 :: v3 :: v4 :: v5 :: rest =
        [v0, v1, v2, v3, v4] ++ d ++ [c] := by
      rw [show ([v0, v1, v2, v3, v4] : List Nat) ++ d ++ [c] =
            v0 :: v1 :: v2 :: v3 :: v4 :: (d ++ [c]) from rfl, ← hdc]
    rw [hb, dp_loads_shape] at h
    obtain ⟨hp, hval⟩ := dp_make_ok_inv h
    cases hmb :
        (DataPackage.mk v0 v1 v2 v3 v4 (d.map byteItem) c).message_block with
    | error e =>
        rw [dp_validate_coerce_err hmb] at hval
        exact absurd hval (by simp)
    | ok mb =>
        obtain ⟨hh, ha, hl, hs, hf, hcc, db, hdb, hmbeq⟩ :=
          dp_message_block_ok_inv hmb
        obtain ⟨hdbd, hdbytes⟩ := force_list_map_int_inv hdb
        subst hdbd
        rw [dp_validate_of_mb hmb, hmbeq, domain_shape] at hval
        exact ⟨v0, v1, v2, v3, v4, c, db, hb, hh, ha, hl, hs, hf, hcc,
          hdbytes, check_crc8_ok_iff.mp hval, hp⟩

lemma mb_loads_ok_inv {b : List Nat} {m : MessageBlock}
    (h : MessageBlock.loads b = .ok m) :
    ∃ h0 l c pl, b = [h0, l] ++ pl ++ [c] ∧
      h0 < 256 ∧ l < 256 ∧ c < 256 ∧ IsBytes pl ∧
      calc_crc8 pl = c ∧ m = ⟨h0, l, pl.map byteItem, c⟩ := by
  match b with
  | [] => exact Except.noConfusion h
  | [v0] => exact Except.noConfusion h
  | [v0, v1] => exact Except.noConfusion h
  | v0 :: v1 :: v2 :: rest =>
    obtain ⟨pl, c, hdc⟩ : ∃ pl c, v2 :: rest = pl ++ [c] :=
      ⟨_, _, (List.dropLast_append_getLast (List.cons_ne_nil v2 rest)).symm⟩
    have hb : v0 :: v1 :: v2 :: rest = [v0, v1] ++ pl ++ [c] := by
      rw [show ([v0, v1] : List Nat) ++ pl ++ [c] =
            v0 :: v1 :: (pl ++ [c]) from rfl, ← hdc]
    rw [hb, mb_loads_shape] at h
    obtain ⟨hm, hval⟩ := mb_make_ok_inv h
    cases hmb : (MessageBlock.mk v0 v1 (pl.map byteItem) c).message_block with
    | error e =>
        rw [mb_validate_coerce_err hmb] at hval
        exact absurd hval (by simp)
    | ok mb =>
        obtain ⟨hh, hl, hcc, pb, hpb, hmbeq⟩ := mb_message_block_ok_inv hmb
        obtain ⟨hpbd, hpbytes⟩ := force_list_map_int_inv hpb
        subst hpbd
        rw [mb_validate_of_mb hmb, hmbeq, mb_domain_shape] at hval
        exact ⟨v0, v1, c, pb, hb, hh, hl, hcc, hpbytes,
          check_crc8_ok_iff.mp hval, hm⟩

lemma crcRound_lt (c : Nat) : crcRound c < 256 :=
  Nat.lt_succ_of_le Nat.and_le_right

lemma crcLoop_lt : ∀ (k c : Nat), c < 256 → crcLoop k c < 256
  | 0, _, hc => hc
  | k + 1, c, _ => crcLoop_lt k (crcRound c) (crcRound_lt c)

lemma xor_lt_256 {a b : Nat} (ha : a < 256) (hb : b < 256) : a ^^^ b < 256 := by
  have h : (256 : Nat) = 2 ^ 8 := by norm_num
  rw [h] at ha hb ⊢
  exact Nat.xor_lt_two_pow ha hb

lemma crcByteStep_lt {a b : Nat} (ha : a < 256) (hb : b < 256) :
    crcByteStep a b < 256 :=
  crcLoop_lt 8 _ (xor_lt_256 ha hb)

lemma crc_nodup : ((List.range 256).map (crcLoop 8)).Nodup := by decide

lemma crcLoop8_inj {a b : Nat} (ha : a < 256) (hb : b < 256)
    (h : crcLoop 8 a = crcLoop 8 b) : a = b :=
  List.inj_on_of_nodup_map crc_nodup
    (List.mem_range.mpr ha) (List.mem_range.mpr hb) h

lemma foldl_crc_lt : ∀ (l : List Nat), IsBytes l → ∀ c, c < 256 →
    l.foldl crcByteStep c < 256
  | [], _, _, hc => hc
  | x :: t, hl, c, hc =>
      foldl_crc_lt t (fun y hy => hl y (by simp [hy]))
        (crcByteStep c x) (crcByteStep_lt hc (hl x (by simp)))

lemma foldl_crc_inj : ∀ (l : List Nat), IsBytes l → ∀ a b, a < 256 →
    b < 256 → a ≠ b → l.foldl crcByteStep a ≠ l.foldl crcByteStep b
  | [], _, _, _, _, _, hne => hne
  | x :: t, hl, a, b, ha, hb, hne => by
      have hx : x < 256 := hl x (by simp)
      have ht : IsBytes t := fun y hy => hl y (by simp [hy])
      rw [List.foldl_cons, List.foldl_cons]
      refine foldl_crc_inj t ht _ _ (crcByteStep_lt ha hx)
        (crcByteStep_lt hb hx) ?_
      intro heq
      exact hne (Nat.xor_left_injective
        (crcLoop8_inj (xor_lt_256 ha hx) (xor_lt_256 hb hx) heq))

lemma calc_crc8_change {pre suf : List Nat} {x v : Nat}
    (hpre : IsBytes pre) (hsuf : IsBytes suf)
    (hx : x < 256) (hv : v < 256) (hne : x ≠ v) :
    calc_crc8 (pre ++ x :: suf) ≠ calc_crc8 (pre ++ v :: suf) := by
  unfold calc_crc8
  rw [List.foldl_append, List.foldl_append, List.foldl_cons, List.foldl_cons]
  have hC : pre.foldl crcByteStep 0 < 256 :=
    foldl_crc_lt pre hpre 0 (by norm_num)
  refine foldl_crc_inj suf hsuf _ _ (crcByteStep_lt hC hx)
    (crcByteStep_lt hC hv) ?_
  intro heq
  exact hne (Nat.xor_right_injective
    (crcLoop8_inj (xor_lt_256 hC hx) (xor_lt_256 hC hv) heq))

lemma round_agree : ∀ c : Fin 256, crcRound c.val = textbookRound c.val := by
  decide

lemma crcRound_eq_textbook {c : Nat} (hc : c < 256) :
    crcRound c = textbookRound c :=
  round_agree ⟨c, hc⟩

lemma loop_agree : ∀ (k : Nat) {c : Nat}, c < 256 →
    crcLoop k c = textbookLoop k c
  | 0, _, _ => rfl
  | k + 1, c, hc => by
      rw [crcLoop, textbookLoop, ← crcRound_eq_textbook hc]
      exact loop_agree k (crcRound_lt c)

lemma foldl_crc_agree : ∀ (d : List Nat), IsBytes d → ∀ {c : Nat}, c < 256 →
    d.foldl crcByteStep c =
      d.foldl (fun c b => textbookLoop 8 (c ^^^ b)) c := by
  intro d
  induction d with
  | nil =>
      intro _ c _
      rw [List.foldl_nil, List.foldl_nil]
  | cons x t ih =>
      intro hd c hc
      have hx : x < 256 := hd x (by simp)
      have ht : IsBytes t := fun y hy => hd y (by simp [hy])
      rw [List.foldl_cons, List.foldl_cons]
      have hstep : crcByteStep c x = textbookLoop 8 (c ^^^ x) :=
        loop_agree 8 (xor_lt_256 hc hx)
      rw [← hstep]
      exact ih ht (crcByteStep_lt hc hx)

lemma calc_crc8_eq_textbook {d : List Nat} (hd : IsBytes d) :
    calc_crc8 d = crc8_textbook d :=
  foldl_crc_agree d hd (by norm_num)

lemma dp_loads_shape_ok_inv {h0 a l s f c : Nat} {d : List Nat}
    {p : DataPackage}
    (h : DataPackage.loads ([h0, a, l, s, f] ++ d ++ [c]) = .ok p) :
    h0 < 256 ∧ a < 256 ∧ l < 256 ∧ s < 256 ∧ f < 256 ∧ c < 256 ∧
    IsBytes d ∧ calc_crc8 ([l, s, f] ++ d) = c ∧
    p = ⟨h0, a, l, s, f, d.map byteItem, c⟩ := by
  rw [dp_loads_shape] at h
  obtain ⟨hp, hval⟩ := dp_make_ok_inv h
  cases hmb :
      (DataPackage.mk h0 a l s f (d.map byteItem) c).message_block with
  | error e =>
      rw [dp_validate_coerce_err hmb] at hval
      exact absurd hval (by simp)
  | ok mb =>
      obtain ⟨hh, ha, hl, hs, hf, hcc, db, hdb, hmbeq⟩ :=
        dp_message_block_ok_inv hmb
      obtain ⟨hdbd, hdbytes⟩ := force_list_map_int_inv hdb
      subst hdbd
      rw [dp_validate_of_mb hmb, hmbeq, domain_shape] at hval
      exact ⟨hh, ha, hl, hs, hf, hcc, hdbytes,
        check_crc8_ok_iff.mp hval, hp⟩

lemma mb_loads_shape_ok_inv {h0 l c : Nat} {pl : List Nat} {m : MessageBlock}
    (h : MessageBlock.loads ([h0, l] ++ pl ++ [c]) = .ok m) :
    h0 < 256 ∧ l < 256 ∧ c < 256 ∧ IsBytes pl ∧ calc_crc8 pl = c ∧
    m = ⟨h0, l, pl.map byteItem, c⟩ := by
  rw [mb_loads_shape] at h
  obtain ⟨hm, hval⟩ := mb_make_ok_inv h
  cases hmb : (MessageBlock.mk h0 l (pl.map byteItem) c).message_block with
  | error e =>
      rw [mb_validate_coerce_err hmb] at hval
      exact absurd hval (by simp)
  | ok mb =>
      obtain ⟨hh, hl, hcc, pb, hpb, hmbeq⟩ := mb_message_block_ok_inv hmb
      obtain ⟨hpbd, hpbytes⟩ := force_list_map_int_inv hpb
      subst hpbd
      rw [mb_validate_of_mb hmb, hmbeq, mb_domain_shape] at hval
      exact ⟨hh, hl, hcc, hpbytes, check_crc8_ok_iff.mp hval, hm⟩

/-- C1: Round-trip — for every byte buffer `b` accepted by decode
(long enough and checksum-valid), re-serializing the decoded frame
reproduces `b` exactly: `DataPackage.loads b = .ok p` implies
`p.message_block = .ok b`, and `MessageBlock.loads b = .ok m` implies
`m.message_block = .ok b`. -/
theorem C1_roundtrip :
    (∀ (b : List Nat) (p : DataPackage),
        DataPackage.loads b = .ok p → p.message_block = .ok b) ∧
    (∀ (b : List Nat) (m : MessageBlock),
        MessageBlock.loads b = .ok m → m.message_block = .ok b) := by
  constructor
  · intro b p h
    obtain ⟨h0, a, l, s, f, c, d, hb, hh, ha, hl, hs, hf, hc, hd, hcrc, hp⟩ :=
      dp_loads_ok_inv h
    subst hp hb
    exact dp_message_block_eq (force_list_map_int_ok hd) hh ha hl hs hf hc
  · intro b m h
    obtain ⟨h0, l, c, pl, hb, hh, hl, hc, hplb, hcrc, hm⟩ := mb_loads_ok_inv h
    subst hm hb
    exact mb_message_block_eq (force_list_map_int_ok hplb) hh hl hc

/-- Witness for C1 at the captured frames
`F7 01 03 00 A3 DD` (CommandFrame) and `F7 47 A1 6E` (NegotiationFrame). -/
theorem C1_roundtrip_witness :
    (DataPackage.mk 0xF7 0x01 0x03 0x00 0xA3 [] 0xDD).message_block =
        .ok [0xF7, 0x01, 0x03, 0x00, 0xA3, 0xDD] ∧
    (MessageBlock.mk 0xF7 0x47 [byteItem 0xA1] 110).message_block =
        .ok [0xF7, 0x47, 0xA1, 110] :=
  ⟨C1_roundtrip.1 [0xF7, 0x01, 0x03, 0x00, 0xA3, 0xDD] _ rfl,
   C1_roundtrip.2 [0xF7, 0x47, 0xA1, 110] _ rfl⟩

/-- C2: CommandFrame construction succeeds exactly when the `crc` field
equals the CRC8 of the serialized `length ++ status ++ function_code ++
data` (head and slave_addr excluded); on mismatch it fails with
`checksumMismatch` carrying the computed value first and the expected value
second; concretely `F7 01 03 00 A3 DE` fails with
`checksumMismatch 0xDD 0xDE`. -/
theorem C2_command_frame_checksum :
    (∀ (h0 a l s f c : Nat) (d : List PyValue) (db : List Nat),
        force_list d = .ok db → h0 < 256 → a < 256 → l < 256 → s < 256 →
        f < 256 → c < 256 →
        (DataPackage.make h0 a l s f d c = .ok ⟨h0, a, l, s, f, d, c⟩ ↔
          c = calc_crc8 ([l, s, f] ++ db)) ∧
        (c ≠ calc_crc8 ([l, s, f] ++ db) →
          DataPackage.make h0 a l s f d c =
            .error (.checksumMismatch (calc_crc8 ([l, s, f] ++ db)) c))) ∧
    DataPackage.loads [0xF7, 0x01, 0x03, 0x00, 0xA3, 0xDE] =
      .error (.checksumMismatch 0xDD 0xDE) := by
  constructor
  · intro h0 a l s f c d db hdb hh ha hl hs hf hc
    rw [dp_make_eq hdb hh ha hl hs hf hc]
    refine ⟨⟨fun hok => ?_, fun hc2 => ?_⟩, fun hne => ?_⟩
    · by_cases hcrc : calc_crc8 ([l, s, f] ++ db) = c
      · exact hcrc.symm
      · rw [if_neg hcrc] at hok
        exact absurd hok (by simp)
    · rw [if_pos hc2.symm]
    · rw [if_neg (fun h2 => hne h2.symm)]
  · rfl

/-- Witness for C2: the captured frame `F7 01 03 00 A3 DD` constructs
successfully and `0xDD` is the CRC8 of `03 00 A3`. -/
theorem C2_command_frame_checksum_witness :
    DataPackage.make 0xF7 0x01 0x03 0x00 0xA3 [] 0xDD =
      .ok ⟨0xF7, 0x01, 0x03, 0x00, 0xA3, [], 0xDD⟩ :=
  ((C2_command_frame_checksum.1 0xF7 0x01 0x03 0x00 0xA3 0xDD [] [] rfl
      (by decide) (by decide) (by decide) (by decide) (by decide)
      (by decide)).1).mpr (by decide)

/-- C3: NegotiationFrame checksum domain — for every `MessageBlock`, the
crc is checked against the CRC8 of the payload bytes only (the `length`
byte and `head` are excluded), and construction succeeds if and only if
`crc = CRC8(payload)`. -/
theorem C3_negotiation_checksum :
    ∀ (h0 l c : Nat) (payload : List PyValue) (pb : List Nat),
      force_list payload = .ok pb → h0 < 256 → l < 256 → c < 256 →
      ((MessageBlock.make h0 l payload c = .ok ⟨h0, l, payload, c⟩ ↔
          c = calc_crc8 pb) ∧
       (c ≠ calc_crc8 pb →
          MessageBlock.make h0 l payload c =
            .error (.checksumMismatch (calc_crc8 pb) c))) := by
  intro h0 l c payload pb hpb hh hl hc
  rw [mb_make_eq hpb hh hl hc]
  refine ⟨⟨fun hok => ?_, fun hc2 => ?_⟩, fun hne => ?_⟩
  · by_cases hcrc : calc_crc8 pb = c
    · exact hcrc.symm
    · rw [if_neg hcrc] at hok
      exact absurd hok (by simp)
  · rw [if_pos hc2.symm]
  · rw [if_neg (fun h2 => hne h2.symm)]

/-- Witness for C3: a negotiation frame whose `length` byte (0x47) is
unrelated to the payload still constructs, because only the payload is in
the checksum domain. -/
theorem C3_negotiation_checksum_witness :
    MessageBlock.make 0xF7 0x47 [byteItem 0xA1] 110 =
      .ok ⟨0xF7, 0x47, [byteItem 0xA1], 110⟩ :=
  ((C3_negotiation_checksum 0xF7 0x47 110 [byteItem 0xA1] [0xA1] rfl
      (by decide) (by decide) (by decide)).1).mpr (by decide)

/-- C4: the CRC8 computation is bit-exact with the textbook
CRC-8/poly-0x07 variant (8-bit accumulator seeded at 0, each byte XORed
in, 8 rounds of shift-left with conditional XOR 0x07, masked to 8 bits),
and the CRC of the empty byte sequence is 0.  It is a pure function of its
input bytes by construction. -/
theorem C4_crc8_bit_exact :
    (∀ d : List Nat, IsBytes d → calc_crc8 d = crc8_textbook d) ∧
    calc_crc8 [] = 0 :=
  ⟨fun _ hd => calc_crc8_eq_textbook hd, rfl⟩

/-- Witness for C4 on the bytes `03 00 A3` of the captured frame. -/
theorem C4_crc8_bit_exact_witness :
    calc_crc8 [0x03, 0x00, 0xA3] = crc8_textbook [0x03, 0x00, 0xA3] :=
  C4_crc8_bit_exact.1 [0x03, 0x00, 0xA3] (by decide)

/-- C7: minimum length rejection — a buffer shorter than 6 bytes fails
`DataPackage.loads`, and shorter than 3 bytes fails `MessageBlock.loads`,
with the unpacking `ValueError` (spec: `MalformedFrame`); decoding is a
total function, so no out-of-range fault can occur. -/
theorem C7_min_length_rejection :
    (∀ b : List Nat, b.length < 6 →
        DataPackage.loads b = .error .unpackMismatch) ∧
    (∀ b : List Nat, b.length < 3 →
        MessageBlock.loads b = .error .unpackMismatch) :=
  ⟨fun _ hb => dp_loads_short hb, fun _ hb => mb_loads_short hb⟩

/-- Witness for C7 at the empty buffer and a 1-byte buffer. -/
theorem C7_min_length_rejection_witness :
    DataPackage.loads [] = .error .unpackMismatch ∧
    MessageBlock.loads [0xF7] = .error .unpackMismatch :=
  ⟨C7_min_length_rejection.1 [] (by decide),
   C7_min_length_rejection.2 [0xF7] (by decide)⟩

/-- Counterexample to C5: the buffer `F7 01 00 00 00 00` is checksum-valid
(CRC8 of `00 00 00` is 0) and decodes successfully, but the decoded frame
has `length = 0 ≠ 3 = 3 + len(data)`: `DataPackage.loads` never checks the
declared length against the actual byte count. -/
theorem C5_length_counterexample :
    ∃ p : DataPackage,
      DataPackage.loads [0xF7, 0x01, 0x00, 0x00, 0x00, 0x00] = .ok p ∧
      p.length ≠ 3 + p.data.length :=
  ⟨⟨0xF7, 0x01, 0x00, 0x00, 0x00, [], 0x00⟩, rfl, by decide⟩

/-- C5 (amended): decoding does not enforce `length == 3 + len(data)` — a
frame decoded from an accepted buffer has `length` equal to the buffer's
third byte and `len(data)` equal to the buffer length minus 6, so the
invariant holds exactly when the buffer's length byte is consistent. -/
theorem C5_length_invariant_iff :
    ∀ (h0 a l s f c : Nat) (d : List Nat) (p : DataPackage),
      DataPackage.loads ([h0, a, l, s, f] ++ d ++ [c]) = .ok p →
      p.length = l ∧ p.data.length = d.length ∧
      (p.length = 3 + p.data.length ↔ l = 3 + d.length) := by
  intro h0 a l s f c d p h
  rw [dp_loads_shape] at h
  obtain ⟨hp, _⟩ := dp_make_ok_inv h
  subst hp
  refine ⟨rfl, List.length_map d byteItem, ?_⟩
  show l = 3 + (d.map byteItem).length ↔ l = 3 + d.length
  rw [List.length_map]

/-- Witness for C5 (amended) at the captured frame `F7 01 03 00 A3 DD`,
whose length byte is consistent. -/
theorem C5_length_invariant_iff_witness :
    (DataPackage.mk 0xF7 0x01 0x03 0x00 0xA3 [] 0xDD).length = 0x03 ∧
    (DataPackage.mk 0xF7 0x01 0x03 0x00 0xA3 [] 0xDD).data.length =
      ([] : List Nat).length ∧
    ((DataPackage.mk 0xF7 0x01 0x03 0x00 0xA3 [] 0xDD).length =
        3 + (DataPackage.mk 0xF7 0x01 0x03 0x00 0xA3 [] 0xDD).data.length ↔
      0x03 = 3 + ([] : List Nat).length) :=
  C5_length_invariant_iff 0xF7 0x01 0x03 0x00 0xA3 0xDD [] _ rfl

/-- C6: checksum domain exactness — for a buffer accepted by
`DataPackage.loads`, replacing the head byte or the slave_addr byte (by any
byte value) leaves the buffer accepted, while replacing any single data
byte by a different byte value without recomputing the crc makes decoding
fail with `checksumMismatch`; likewise for a single payload byte of a
`MessageBlock` buffer. -/
theorem C6_checksum_domain_exactness :
    (∀ (h0 a l s f c : Nat) (d : List Nat) (p : DataPackage),
        DataPackage.loads ([h0, a, l, s, f] ++ d ++ [c]) = .ok p →
        (∀ h1, h1 < 256 →
            ∃ q, DataPackage.loads ([h1, a, l, s, f] ++ d ++ [c]) = .ok q) ∧
        (∀ a1, a1 < 256 →
            ∃ q, DataPackage.loads ([h0, a1, l, s, f] ++ d ++ [c]) = .ok q) ∧
        (∀ (d1 : List Nat) (x : Nat) (d2 : List Nat) (v : Nat),
            d = d1 ++ x :: d2 → v < 256 → v ≠ x →
            DataPackage.loads ([h0, a, l, s, f] ++ (d1 ++ v :: d2) ++ [c]) =
              .error (.checksumMismatch
                (calc_crc8 ([l, s, f] ++ (d1 ++ v :: d2))) c))) ∧
    (∀ (h0 l c : Nat) (pl : List Nat) (m : MessageBlock),
        MessageBlock.loads ([h0, l] ++ pl ++ [c]) = .ok m →
        ∀ (p1 : List Nat) (x : Nat) (p2 : List Nat) (v : Nat),
          pl = p1 ++ x :: p2 → v < 256 → v ≠ x →
          MessageBlock.loads ([h0, l] ++ (p1 ++ v :: p2) ++ [c]) =
            .error (.checksumMismatch (calc_crc8 (p1 ++ v :: p2)) c)) := by
  constructor
  · intro h0 a l s f c d p h
    obtain ⟨hh, ha, hl, hs, hf, hc, hd, hcrc, hp⟩ := dp_loads_shape_ok_inv h
    refine ⟨?_, ?_, ?_⟩
    · intro h1 hh1
      exact ⟨_, dp_loads_shape_ok hh1 ha hl hs hf hc hd hcrc⟩
    · intro a1 ha1
      exact ⟨_, dp_loads_shape_ok hh ha1 hl hs hf hc hd hcrc⟩
    · intro d1 x d2 v hdeq hv hvx
      subst hdeq
      have hx : x < 256 := hd x (by simp)
      have hpre : IsBytes ([l, s, f] ++ d1) := by
        intro y hy
        simp only [List.mem_append, List.mem_cons, List.not_mem_nil,
          or_false] at hy
        rcases hy with (rfl | rfl | rfl) | hy
        · exact hl
        · exact hs
        · exact hf
        · exact hd y (by simp [hy])
      have hsuf : IsBytes d2 := fun y hy => hd y (by simp [hy])
      have hd2 : IsBytes (d1 ++ v :: d2) := by
        intro y hy
        rcases List.mem_append.mp hy with hy | hy
        · exact hd y (by simp [hy])
        · rcases List.mem_cons.mp hy with hy | hy
          · exact hy ▸ hv
          · exact hd y (by simp [hy])
      have e1 : [l, s, f] ++ (d1 ++ v :: d2) = ([l, s, f] ++ d1) ++ v :: d2 := by
        rw [List.append_assoc]
      have e2 : [l, s, f] ++ (d1 ++ x :: d2) = ([l, s, f] ++ d1) ++ x :: d2 := by
        rw [List.append_assoc]
      have hne : calc_crc8 ([l, s, f] ++ (d1 ++ v :: d2)) ≠ c := by
        rw [← hcrc, e1, e2]
        exact calc_crc8_change hpre hsuf hv hx hvx
      exact dp_loads_shape_err hh ha hl hs hf hc hd2 hne
  · intro h0 l c pl m h
    obtain ⟨hh, hl, hc, hpl, hcrc, hm⟩ := mb_loads_shape_ok_inv h
    intro p1 x p2 v hpeq hv hvx
    subst hpeq
    have hx : x < 256 := hpl x (by simp)
    have hpre : IsBytes p1 := fun y hy => hpl y (by simp [hy])
    have hsuf : IsBytes p2 := fun y hy => hpl y (by simp [hy])
    have hp2 : IsBytes (p1 ++ v :: p2) := by
      intro y hy
      rcases List.mem_append.mp hy with hy | hy
      · exact hpl y (by simp [hy])
      · rcases List.mem_cons.mp hy with hy | hy
        · exact hy ▸ hv
        · exact hpl y (by simp [hy])
    have hne : calc_crc8 (p1 ++ v :: p2) ≠ c := by
      rw [← hcrc]
      exact calc_crc8_change hpre hsuf hv hx hvx
    exact mb_loads_shape_err hh hl hc hp2 hne

/-- Witness for C6: mutating the head byte of `F7 01 05 FF 04 00 01 90`
to `00` still decodes; mutating the first data byte to `05` fails with a
checksum mismatch; mutating the payload byte of the negotiation frame
`F7 47 A1 6E` to `07` fails with a checksum mismatch. -/
theorem C6_checksum_domain_exactness_witness :
    (∃ q, DataPackage.loads [0x00, 0x01, 0x05, 0xFF, 0x04, 0x00, 0x01, 0x90] =
        .ok q) ∧
    DataPackage.loads [0xF7, 0x01, 0x05, 0xFF, 0x04, 0x05, 0x01, 0x90] =
      .error (.checksumMismatch
        (calc_crc8 [0x05, 0xFF, 0x04, 0x05, 0x01]) 0x90) ∧
    MessageBlock.loads [0xF7, 0x47, 0x07, 110] =
      .error (.checksumMismatch (calc_crc8 [0x07]) 110) :=
  ⟨(C6_checksum_domain_exactness.1 0xF7 0x01 0x05 0xFF 0x04 0x90
      [0x00, 0x01] ⟨0xF7, 0x01, 0x05, 0xFF, 0x04,
        [byteItem 0x00, byteItem 0x01], 0x90⟩ rfl).1 0x00 (by decide),
   (C6_checksum_domain_exactness.1 0xF7 0x01 0x05 0xFF 0x04 0x90
      [0x00, 0x01] ⟨0xF7, 0x01, 0x05, 0xFF, 0x04,
        [byteItem 0x00, byteItem 0x01], 0x90⟩ rfl).2.2
      [] 0x00 [0x01] 0x05 rfl (by decide) (by decide),
   C6_checksum_domain_exactness.2 0xF7 0x47 110 [0xA1]
      ⟨0xF7, 0x47, [byteItem 0xA1], 110⟩ rfl
      [] 0xA1 [] 0x07 rfl (by decide) (by decide)⟩

/-- C8: the `force_to_bytes` contract — an integer in 0..255 becomes
exactly one big-endian byte, a list becomes the in-order concatenation of
the coercion of each element, a bytes buffer passes through unchanged,
text is UTF-8 encoded; a float (unregistered type) fails with the
unknown-type `ValueError`, and a negative integer or an integer ≥ 256
fails with the `OverflowError` of `int.to_bytes` — every unsupported
shape fails (the spec's single `UnsupportedValueKind`). -/
theorem C8_force_to_bytes_contract :
    (∀ n : Int, 0 ≤ n → n < 256 → force_to_bytes (.int n) = .ok [n.toNat]) ∧
    (∀ bs, force_to_bytes (.bytes bs) = .ok bs) ∧
    (∀ s, force_to_bytes (.str s) = .ok (utf8Bytes s)) ∧
    (∀ (vs : List PyValue) (bss : List (List Nat)),
        List.Forall₂ (fun v bs => force_to_bytes v = .ok bs) vs bss →
        force_to_bytes (.list vs) = .ok bss.flatten) ∧
    (force_to_bytes .float = .error .unknownType) ∧
    (∀ n : Int, n < 0 → force_to_bytes (.int n) = .error .intOverflow) ∧
    (∀ n : Int, 256 ≤ n → force_to_bytes (.int n) = .error .intOverflow) := by
  refine ⟨?_, fun bs => rfl, fun s => rfl, ?_, rfl, ?_, ?_⟩
  · intro n h1 h2
    rw [force_to_bytes, if_pos ⟨h1, h2⟩]
  · intro vs bss hf
    show force_list vs = .ok bss.flatten
    induction hf with
    | nil => rfl
    | cons hv htail ih =>
        rw [force_list, hv, ih]
        show Except.ok _ = _
        rw [List.flatten_cons]
  · intro n hn
    rw [force_to_bytes, if_neg (by omega)]
  · intro n hn
    rw [force_to_bytes, if_neg (by omega)]

/-- Witness for C8 at concrete values of every shape. -/
theorem C8_force_to_bytes_contract_witness :
    force_to_bytes (.int 65) = .ok [65] ∧
    force_to_bytes (.int (-1)) = .error .intOverflow ∧
    force_to_bytes (.int 300) = .error .intOverflow ∧
    force_to_bytes (.list [.int 1, .bytes [2, 3]]) = .ok [1, 2, 3] :=
  ⟨C8_force_to_bytes_contract.1 65 (by norm_num) (by norm_num),
   C8_force_to_bytes_contract.2.2.2.2.2.1 (-1) (by norm_num),
   C8_force_to_bytes_contract.2.2.2.2.2.2 300 (by norm_num),
   C8_force_to_bytes_contract.2.2.2.1 [.int 1, .bytes [2, 3]] [[1], [2, 3]]
     (.cons rfl (.cons rfl .nil))⟩

/-- C9: unknown codes are not errors — decoding requires no membership of
the function/status byte in the `Command`/`ResponseState` enumerations: any
checksum-valid buffer decodes and exposes the raw bytes; the diagnostic
rendering resolves recognized codes to their enumeration names and falls
back to the raw numeric value otherwise (e.g. `0x99`, which is in neither
enumeration, decodes fine and renders raw). -/
theorem C9_unknown_codes_decode :
    (∀ (h0 a l s f c : Nat) (d : List Nat),
        h0 < 256 → a < 256 → l < 256 → s < 256 → f < 256 → c < 256 →
        IsBytes d → calc_crc8 ([l, s, f] ++ d) = c →
        ∃ p, DataPackage.loads ([h0, a, l, s, f] ++ d ++ [c]) = .ok p ∧
          p.function_code = f ∧ p.status = s) ∧
    (∀ v, (enumLookup commandMembers v = none →
            reprFunctionCode v = .raw v) ∧
       (∀ nm, enumLookup commandMembers v = some nm →
            reprFunctionCode v = .member nm) ∧
       (enumLookup responseStateMembers v = none → reprStatus v = .raw v) ∧
       (∀ nm, enumLookup responseStateMembers v = some nm →
            reprStatus v = .member nm)) ∧
    (∃ p, DataPackage.loads [0xF7, 0x01, 0x03, 0x00, 0x99, 0x7B] = .ok p ∧
       p.function_code = 0x99 ∧ enumLookup commandMembers 0x99 = none ∧
       reprFunctionCode 0x99 = .raw 0x99) := by
  refine ⟨?_, ?_, ?_⟩
  · intro h0 a l s f c d hh ha hl hs hf hc hd hcrc
    exact ⟨_, dp_loads_shape_ok hh ha hl hs hf hc hd hcrc, rfl, rfl⟩
  · intro v
    refine ⟨?_, ?_, ?_, ?_⟩
    · intro h
      unfold reprFunctionCode
      rw [h]
    · intro nm h
      unfold reprFunctionCode
      rw [h]
    · intro h
      unfold reprStatus
      rw [h]
    · intro nm h
      unfold reprStatus
      rw [h]
  · exact ⟨⟨0xF7, 0x01, 0x03, 0x00, 0x99, [], 0x7B⟩, rfl, rfl, rfl, rfl⟩

/-- Witness for C9: the captured frame `F7 01 03 00 A2 DA` decodes with
raw codes exposed, and `0xA3` renders as `CMD_GET_ADDR_TABLE`. -/
theorem C9_unknown_codes_decode_witness :
    (∃ p, DataPackage.loads [0xF7, 0x01, 0x03, 0x00, 0xA2, 0xDA] = .ok p ∧
        p.function_code = 0xA2 ∧ p.status = 0x00) ∧
    reprFunctionCode 0xA3 = .member "CMD_GET_ADDR_TABLE" :=
  ⟨C9_unknown_codes_decode.1 0xF7 0x01 0x03 0x00 0xA2 0xDA []
      (by decide) (by decide) (by decide) (by decide) (by decide)
      (by decide) (by decide) (by decide),
   (C9_unknown_codes_decode.2.1 0xA3).2.1 "CMD_GET_ADDR_TABLE" rfl⟩

/-- C10: for every frame, `hash(frame)` is the hash of its serialized
byte form `message_block` (for any hash function on byte strings, since
Python's is unspecified); hence frames that serialize to identical wire
bytes hash equal even when their in-memory `data` representations differ —
`[0, 1]` versus `[b"\x00\x01"]` — and the frames compare unequal under
field-wise dataclass equality. -/
theorem C10_hash_of_serialization :
    (∀ (g : List Nat → Nat) (p : DataPackage),
        p.pyHash g = (p.message_block).map g) ∧
    (∀ (g : List Nat → Nat) (m : MessageBlock),
        m.pyHash g = (m.message_block).map g) ∧
    (∀ (g : List Nat → Nat) (p q : DataPackage),
        p.message_block = q.message_block → p.pyHash g = q.pyHash g) ∧
    (∃ p q : DataPackage,
        p.validate = .ok () ∧ q.validate = .ok () ∧
        p.message_block = q.message_block ∧ p.data ≠ q.data ∧ p ≠ q ∧
        ∀ g : List Nat → Nat, p.pyHash g = q.pyHash g) := by
  have hdata : ([byteItem 0x00, byteItem 0x01] : List PyValue) ≠
      [.bytes [0x00, 0x01]] :=
    fun hdata => PyValue.noConfusion (List.cons.inj hdata).1
  refine ⟨fun g p => rfl, fun g m => rfl,
    fun g p q h => by rw [DataPackage.pyHash, DataPackage.pyHash, h], ?_⟩
  refine ⟨⟨0xF7, 0x01, 0x05, 0xFF, 0x04, [byteItem 0x00, byteItem 0x01], 0x90⟩,
    ⟨0xF7, 0x01, 0x05, 0xFF, 0x04, [.bytes [0x00, 0x01]], 0x90⟩,
    rfl, rfl, rfl, hdata, ?_, fun g => rfl⟩
  intro hpq
  exact hdata (congrArg DataPackage.data hpq)

/-- Witness for C10: the two frames above hash equal under a concrete
hash function. -/
theorem C10_hash_of_serialization_witness :
    (DataPackage.mk 0xF7 0x01 0x05 0xFF 0x04
        [byteItem 0x00, byteItem 0x01] 0x90).pyHash List.length =
    (DataPackage.mk 0xF7 0x01 0x05 0xFF 0x04
        [.bytes [0x00, 0x01]] 0x90).pyHash List.length :=
  C10_hash_of_serialization.2.2.1 List.length _ _ rfl

end CFS
